import Mathlib

/-!
Verification of the slowtail paced line-streaming engine (`slowtail.go`)
against its natural-language specification.

The Go source is shallowly embedded: pure fragments become Lean functions,
the file system is an `Option (List String)` (`none` = the file cannot be
opened), channels become lists of delivered values, and fatal error exits
(`checkErr` / `log.Fatal`, which terminate the process with a non-zero
status) become an explicit boolean "fatal" flag or an `Except` error.
Machine integers are modelled as `Int` with the explicit 32/64-bit bounds
the code tests against.
-/

namespace Slowtail

/-- `math.MaxInt32` from the Go standard library. -/
def maxInt32 : Int := 2147483647

/-- `math.MaxInt64`: upper bound of Go's 64-bit `int`. -/
def maxInt64 : Int := 9223372036854775807

/-- `math.MinInt64`: lower bound of Go's 64-bit `int`. -/
def minInt64 : Int := -9223372036854775808

/-! ## `strconv.Atoi`

`parseArgs` calls `strconv.Atoi` and discards the returned error
(`rewindLines, _ = strconv.Atoi(rewindArg)`).  `Atoi` yields the parsed
value for a well-formed decimal string (optionally signed), the value 0
together with a syntax error for malformed text, and the nearest 64-bit
bound together with a range error on overflow.  `goAtoiParse` models the
syntactic parse (`none` = syntax error) and `goAtoi` the value that the
Go code actually uses once the error is ignored. -/

/-- Decimal value of a non-empty all-digit character list; `none` when the
list is empty or contains a non-digit (the `strconv` syntax-error case). -/
def digitsToNat (cs : List Char) : Option Nat :=
  if cs ≠ [] && cs.all Char.isDigit then
    some (cs.foldl (fun a c => a * 10 + (c.toNat - 48)) 0)
  else
    none

/-- Syntactic parse of `strconv.Atoi`: optional sign followed by digits. -/
def goAtoiParse (s : String) : Option Int :=
  match s.data with
  | '-' :: cs => (digitsToNat cs).map (fun n => -(n : Int))
  | '+' :: cs => (digitsToNat cs).map (fun n => (n : Int))
  | cs => (digitsToNat cs).map (fun n => (n : Int))

/-- Clamp to the 64-bit range, as `strconv.ParseInt` does on a range error. -/
def clampInt64 (n : Int) : Int :=
  if n > maxInt64 then maxInt64 else if n < minInt64 then minInt64 else n

/-- The value `strconv.Atoi` returns when its error is discarded:
0 on a syntax error, the 64-bit-clamped value otherwise. -/
def goAtoi (s : String) : Int :=
  match goAtoiParse s with
  | none => 0
  | some n => clampInt64 n

/-! ## `parseArgs` -/

/-- The `arguments` struct of `slowtail.go`. -/
structure Arguments where
  rewindLines : Int
  delayMilliseconds : Int
  filePath : String
deriving DecidableEq, Repr

/-- `parseArgs` from `slowtail.go`: each flag, when present, is run through
`strconv.Atoi` with the error discarded, then range-checked against
`[0, math.MaxInt32]`; a failed range check aborts with the corresponding
error message (in `main` this error is passed to `checkErr`, which exits
the process with a non-zero status before any goroutine is started). -/
def parseArgs (rewindArg delayArg fileArg : Option String) : Except String Arguments :=
  let rewindLines : Int := match rewindArg with | some s => goAtoi s | none => 0
  if rewindLines < 0 ∨ rewindLines > maxInt32 then
    .error "--rewind must be a positive number of lines"
  else
    let delayMilliseconds : Int := match delayArg with | some s => goAtoi s | none => 250
    if delayMilliseconds < 0 ∨ delayMilliseconds > maxInt32 then
      .error "--delay must be a positive number of milliseconds"
    else
      .ok ⟨rewindLines, delayMilliseconds, fileArg.getD ""⟩

/-- Whether an `Except` value is the success case. -/
def exceptOk {ε α : Type} : Except ε α → Bool
  | .ok _ => true
  | .error _ => false

/-! ## The rewind pass: `eachFileLine` / `tailFile` / `fileToChan`

A file is `Option (List String)`: `some lines` when it can be opened and
scans into newline-terminated records, `none` when `os.Open` fails. -/

/-- First use of `eachFileLine` in `tailFile`: a counting pass with a
no-op callback; returns the number of lines read, or the open error. -/
def eachFileLineCount (fs : Option (List String)) : Except Unit Nat :=
  match fs with
  | none => .error ()
  | some ls => .ok ls.length

/-- Second use of `eachFileLine` in `tailFile`: walk the lines with a
running `lineNum` (starting at `n`) and print every line whose number is
at least `thr` (`linesToTail`); the result collects what is printed. -/
def eachFileLinePrint (thr : Nat) : Nat → List String → List String
  | _, [] => []
  | n, l :: ls =>
    if thr ≤ n then l :: eachFileLinePrint thr (n + 1) ls
    else eachFileLinePrint thr (n + 1) ls

/-- `tailFile` from `slowtail.go`: count the file's lines, set
`linesToTail := |linesCount - totalLinesCount|` (via `math.Abs`), then
re-scan printing every line with `lineNum >= linesToTail`.  If the
counting pass failed (file cannot be opened), `checkErr` aborts the
process: nothing is printed and the fatal flag (second component) is set. -/
def tailFile (fs : Option (List String)) (linesCount : Int) : List String × Bool :=
  match eachFileLineCount fs with
  | .error _ => ([], true)
  | .ok total =>
    (eachFileLinePrint (linesCount - (total : Int)).natAbs 0 (fs.getD []), false)

/-- The rewind phase of `fileToChan`: `tailFile` runs only when
`rewindLinesCount > 0`; with a rewind of 0 no pass is performed. -/
def fileToChanRewind (fs : Option (List String)) (rewindLinesCount : Int) :
    List String × Bool :=
  if rewindLinesCount > 0 then tailFile fs rewindLinesCount else ([], false)

/-! ## The stream adapter: `stdinToChan` and the relay loop in `main` -/

/-- `stdinToChan`'s per-line callback, unrolled over the whole (finite)
input: every line is sent on the channel; the inter-line sleep
(`sleepMilliseconds(globalDelay)`) runs only when the remaining rewind
counter is 0, and a positive counter is decremented instead.  Each entry
pairs the delivered line with whether the delay was incurred for it. -/
def stdinToChanEvents : List String → Nat → List (String × Bool)
  | [], _ => []
  | l :: ls, r =>
    (l, r == 0) :: stdinToChanEvents ls (if r > 0 then r - 1 else r)

/-- A full `stdinToChan` run on a finite input: the sequence of channel
events plus the fact that the deferred `close(*linesChannel)` ran
(second component: the output channel was closed at end-of-input). -/
def stdinToChanRun (input : List String) (rewindLinesCount : Nat) :
    List (String × Bool) × Bool :=
  (stdinToChanEvents input rewindLinesCount, true)

/-- The relay loop of `main`: `for line := range linesChannel` prints each
received line; it terminates when the channel is closed.  The result is
the printed sequence. -/
def relayLoop : List String → List String
  | [] => []
  | l :: ls => l :: relayLoop ls

/-! ## `changeSpeed` and `speedMessage` -/

/-- `changeSpeed` from `slowtail.go`, as the transformation it applies to
`globalDelay`: arrow-down (`down = true`, "slower") adds 250 only when the
current value is strictly below `MaxInt32 - 250`; arrow-up ("faster")
subtracts 250 only when the result would be non-negative. -/
def changeSpeed (down : Bool) (globalDelay : Int) : Int :=
  if down then
    if globalDelay < maxInt32 - 250 then globalDelay + 250 else globalDelay
  else
    if globalDelay - 250 ≥ 0 then globalDelay - 250 else globalDelay

/-- The transformation claimed by the specification, in its words: add
250 saturating at `INT32_MAX`, or subtract 250 flooring at 0.  Kept
separate from `changeSpeed` (the code) so the two can be compared. -/
def specChangeSpeed (down : Bool) (d : Int) : Int :=
  if down then min (d + 250) maxInt32 else max (d - 250) 0

/-- `speedMessage` from `slowtail.go`, as a function of the direction, the
terminal width `w` (`termbox.Size`) and the current `globalDelay`.  The
width tiers pick a format and a real-time message; below width 20 the
default branch returns `""` immediately; otherwise a positive delay is
rendered through the format (`fmt.Sprintf` with the direction and the
delay) and a non-positive delay yields the tier's real-time message. -/
def speedMessage (down : Bool) (w : Int) (globalDelay : Int) : String :=
  let direction := if down then "slower" else "faster"
  if 70 ≤ w then
    if 0 < globalDelay then
      "━━━━━━━━━━━━━━━━ Going " ++ direction ++ " (delay: " ++
        toString globalDelay ++ " ms) ━━━━━━━━━━━━━━━━"
    else
      "━━━━━━━━━━━━━━━━━━━ Working in real-time… ━━━━━━━━━━━━━━━━━━━"
  else if 55 ≤ w then
    if 0 < globalDelay then
      "━━━━━━━━━ Going " ++ direction ++ " (delay: " ++
        toString globalDelay ++ " ms) ━━━━━━━━━"
    else
      "━━━━━━━━━━━ Working in real-time… ━━━━━━━━━━━"
  else if 40 ≤ w then
    if 0 < globalDelay then
      "━━ Going " ++ direction ++ " (delay: " ++ toString globalDelay ++ " ms) ━━"
    else
      "━━ Working in real-time… ━━"
  else if 20 ≤ w then
    if 0 < globalDelay then
      "━ " ++ toString globalDelay ++ " ms ━"
    else
      "━━━ RT ━━━"
  else
    ""

/-- The real-time banner of each width tier, as the specification's claim
expects it: a fixed message per tier, empty below the minimum width. -/
def realTimeBanner (w : Int) : String :=
  if 70 ≤ w then "━━━━━━━━━━━━━━━━━━━ Working in real-time… ━━━━━━━━━━━━━━━━━━━"
  else if 55 ≤ w then "━━━━━━━━━━━ Working in real-time… ━━━━━━━━━━━"
  else if 40 ≤ w then "━━ Working in real-time… ━━"
  else if 20 ≤ w then "━━━ RT ━━━"
  else ""

/-! ## Variant selection and the startup rendezvous in `main`

`main` runs
`if isStdin() && <-readyChannel { go stdinToChan(...) } else { go fileToChan(...) }`.
Both senders on `readyChannel` (the `interactiveMode` goroutine after
`termbox.Init` succeeds, or `main` itself in non-interactive mode) send
the value `true`, so a received readiness token is always `true`; and Go's
`&&` short-circuits, so the blocking receive `<-readyChannel` is evaluated
only when `isStdin()` returned `true`. -/

/-- The two line-source variants. -/
inductive Variant where
  | stream
  | file
deriving DecidableEq, Repr

/-- `isStdin` from `slowtail.go`: true iff the `ModeCharDevice` bit of
standard input's file mode is clear. -/
def isStdin (stdinIsCharDevice : Bool) : Bool :=
  if stdinIsCharDevice = false then true else false

/-- The only value ever sent on `readyChannel` (both branches send `true`). -/
def readySignal : Bool := true

/-- The variant `main` starts: the condition `isStdin() && <-readyChannel`. -/
def selectedVariant (stdinIsCharDevice : Bool) : Variant :=
  if isStdin stdinIsCharDevice && readySignal then .stream else .file

/-- Whether the adapter start in `main` is preceded by the blocking receive
on `readyChannel`: because `&&` short-circuits, the receive happens iff
`isStdin()` is true; on the `else` (file) branch `fileToChan` is started
without ever waiting for the readiness token. -/
def adapterStartWaitsForReady (stdinIsCharDevice : Bool) : Bool :=
  isStdin stdinIsCharDevice

/-! ## Lock discipline around `globalDelay`

`globalDelay` is guarded by `globalDelayMutex`.  The table below lists
every textual access to `globalDelay` in `slowtail.go` together with
whether it is a write and whether the mutex is held at that point; the
lock state at each site is static (each lock/unlock pair encloses a fixed
straight-line region of the function). -/

/-- The access sites of `globalDelay` in `slowtail.go`. -/
inductive DelayAccessSite where
  /-- `main`: `globalDelay = options.delayMilliseconds` (before goroutines start). -/
  | mainInitWrite
  /-- `stdinToChan`: `sleepMilliseconds(globalDelay)`. -/
  | stdinSleepRead
  /-- `fileToChan`: `sleepMilliseconds(globalDelay)`. -/
  | fileSleepRead
  /-- `speedMessage`: `if globalDelay > 0` (mutex locked with deferred unlock). -/
  | speedMessageGuardRead
  /-- `speedMessage`: `fmt.Sprintf(format, direction, globalDelay)`. -/
  | speedMessageFormatRead
  /-- `changeSpeed`, down branch: guard `globalDelay < math.MaxInt32-250`. -/
  | changeSpeedDownGuardRead
  /-- `changeSpeed`, down branch: `globalDelay += 250` (between Lock and Unlock). -/
  | changeSpeedDownWrite
  /-- `changeSpeed`, up branch: guard `globalDelay-250 >= 0` (after Lock). -/
  | changeSpeedUpGuardRead
  /-- `changeSpeed`, up branch: `globalDelay -= 250` (before Unlock). -/
  | changeSpeedUpWrite
deriving DecidableEq, Repr

/-- One access to `globalDelay`: its site, whether it writes, and whether
`globalDelayMutex` is held when it executes. -/
structure DelayAccess where
  site : DelayAccessSite
  write : Bool
  underLock : Bool
deriving DecidableEq, Repr

/-- All accesses to `globalDelay` in `slowtail.go`, read off the source:
the two producer-side sleep reads take no lock; `changeSpeed`'s down
branch tests its saturation guard before acquiring the lock; the
remaining `changeSpeed` and `speedMessage` accesses are inside
Lock/Unlock pairs; `main`'s initial write precedes every goroutine. -/
def globalDelayAccesses : List DelayAccess :=
  [⟨.mainInitWrite, true, false⟩,
   ⟨.stdinSleepRead, false, false⟩,
   ⟨.fileSleepRead, false, false⟩,
   ⟨.speedMessageGuardRead, false, true⟩,
   ⟨.speedMessageFormatRead, false, true⟩,
   ⟨.changeSpeedDownGuardRead, false, false⟩,
   ⟨.changeSpeedDownWrite, true, true⟩,
   ⟨.changeSpeedUpGuardRead, false, true⟩,
   ⟨.changeSpeedUpWrite, true, true⟩]

/-! ## Helper lemmas -/

/-- The printing pass over a file with running line number `n` and
threshold `thr` emits exactly the suffix from index `thr` on. -/
theorem eachFileLinePrint_eq_drop (thr : Nat) :
    ∀ (ls : List String) (n : Nat), eachFileLinePrint thr n ls = ls.drop (thr - n) := by
  intro ls
  induction ls with
  | nil => intro n; simp [eachFileLinePrint]
  | cons l ls ih =>
    intro n
    by_cases h : thr ≤ n
    · rw [eachFileLinePrint, if_pos h, ih]
      have h1 : thr - n = 0 := Nat.sub_eq_zero_of_le h
      have h2 : thr - (n + 1) = 0 := Nat.sub_eq_zero_of_le (Nat.le_succ_of_le h)
      rw [h1, h2]
      simp
    · rw [eachFileLinePrint, if_neg h, ih]
      have h3 : thr - n = (thr - (n + 1)) + 1 := by omega
      rw [h3, List.drop_succ_cons]

/-- The stream adapter delivers every input line, in order. -/
theorem stdinToChanEvents_map_fst (input : List String) :
    ∀ r, (stdinToChanEvents input r).map Prod.fst = input := by
  induction input with
  | nil => intro r; rfl
  | cons l ls ih => intro r; simp only [stdinToChanEvents, List.map_cons, ih]

/-- The relay loop prints exactly the sequence it receives. -/
theorem relayLoop_eq_id : ∀ ls : List String, relayLoop ls = ls := by
  intro ls
  induction ls with
  | nil => rfl
  | cons l ls ih => rw [relayLoop, ih]

/-- Index-wise description of the stream adapter's events: line `i` is
delivered unchanged and incurs the delay exactly when `r ≤ i`. -/
theorem stdinToChanEvents_get (input : List String) :
    ∀ (r i : Nat), (stdinToChanEvents input r).get? i =
      (input.get? i).map (fun l => (l, decide (r ≤ i))) := by
  induction input with
  | nil => intro r i; simp [stdinToChanEvents]
  | cons l ls ih =>
    intro r i
    cases i with
    | zero =>
      cases r with
      | zero => simp [stdinToChanEvents]
      | succ r => simp [stdinToChanEvents]
    | succ i =>
      rw [stdinToChanEvents]
      cases r with
      | zero =>
        simp only [List.get?_cons_succ, ih]
        simp
      | succ r =>
        simp only [List.get?_cons_succ, ih]
        have hif : (if r + 1 > 0 then r + 1 - 1 else r + 1) = r := by simp
        rw [hif]
        have hd : decide (r ≤ i) = decide (r + 1 ≤ i + 1) := by
          rw [decide_eq_decide]
          omega
        rw [hd]

/-- A banner with `"slower"` spliced in never equals the same banner with
`"faster"` spliced in. -/
theorem slower_ne_faster_mid (a m t l : String) :
    a ++ "slower" ++ m ++ t ++ l ≠ a ++ "faster" ++ m ++ t ++ l := by
  intro h
  have hd := congrArg String.data h
  simp only [String.data_append] at hd
  have h1 := List.append_cancel_right hd
  have h2 := List.append_cancel_right h1
  have h3 := List.append_cancel_right h2
  have h4 := List.append_cancel_left h3
  simp at h4

/-- An in-range syntactically valid flag value passes through
`strconv.Atoi`'s discarded-error path unchanged. -/
theorem goAtoi_of_parse_in_range (s : String) (n : Int) (hp : goAtoiParse s = some n)
    (h0 : 0 ≤ n) (h1 : n ≤ maxInt32) : goAtoi s = n := by
  rw [goAtoi, hp]
  show clampInt64 n = n
  rw [clampInt64, maxInt64, minInt64]
  rw [maxInt32] at h1
  split_ifs <;> omega

/-- Evaluation of `parseArgs` when only `--rewind` is supplied. -/
theorem parseArgs_rewind_spec (s : String) : parseArgs (some s) none none =
    if goAtoi s < 0 ∨ goAtoi s > maxInt32 then
      .error "--rewind must be a positive number of lines"
    else .ok ⟨goAtoi s, 250, ""⟩ := by
  simp only [parseArgs]
  split_ifs with h h2
  · rfl
  · exact absurd h2 (by rw [maxInt32]; omega)
  · rfl

/-- Evaluation of `parseArgs` when only `--delay` is supplied. -/
theorem parseArgs_delay_spec (s : String) : parseArgs none (some s) none =
    if goAtoi s < 0 ∨ goAtoi s > maxInt32 then
      .error "--delay must be a positive number of milliseconds"
    else .ok ⟨0, goAtoi s, ""⟩ := by
  simp only [parseArgs]
  rw [if_neg (by rw [maxInt32]; omega)]
  split_ifs with h
  · rfl
  · rfl

/-! ## Claim theorems -/

/-- Claim C1 (confirmed): for every non-negative `rewindLines` `r` and a
readable file of `totalLines` newline-terminated records, the rewind pass
emits exactly the lines whose 0-based index is at least
`|rewindLines - totalLines|` — i.e. the suffix `file.drop T` with
`T = ((r : Int) - totalLines).natAbs` — with no fatal error; `r = 0`
performs no pass and the formula degenerates to the empty suffix, and
`r > totalLines` reflects around zero through the absolute difference. -/
theorem rewindPass_emits_exact_suffix (file : List String) (r : Nat) :
    fileToChanRewind (some file) (r : Int) =
      (file.drop (((r : Int) - (file.length : Int)).natAbs), false) := by
  by_cases h : (r : Int) > 0
  · rw [fileToChanRewind, if_pos h]
    rw [tailFile]
    simp only [eachFileLineCount, Option.getD]
    rw [eachFileLinePrint_eq_drop]
    simp
  · rw [fileToChanRewind, if_neg h]
    have hr : r = 0 := by omega
    subst hr
    have hT : (((0 : Nat) : Int) - (file.length : Int)).natAbs = file.length := by
      simp
    rw [hT, List.drop_length]

/-- Claim C2 counterexample: the claim says a "faster" event decreases
the delay by exactly 250 ms, floored at 0.  At current delay 100 the code
leaves the delay at 100 — it neither decreases it by 250 nor floors it at
0 (the claim's own reading, `specChangeSpeed`, yields 0 there). -/
theorem changeSpeed_faster_not_floored_at_zero :
    changeSpeed false 100 = 100 ∧ specChangeSpeed false 100 = 0 := by decide

/-- Claim C2 as amended (corrected): a "slower" event adds exactly 250 ms
when the current delay is strictly below `INT32_MAX - 250` and otherwise
leaves it unchanged, so the delay never exceeds `INT32_MAX`; a "faster"
event subtracts exactly 250 ms when the current delay is at least 250 and
otherwise leaves it unchanged, so the delay never becomes negative. -/
theorem changeSpeed_step_characterization (d : Int) (down : Bool)
    (h0 : 0 ≤ d) (h1 : d ≤ maxInt32) :
    0 ≤ changeSpeed down d ∧ changeSpeed down d ≤ maxInt32 ∧
    (d < maxInt32 - 250 → changeSpeed true d = d + 250) ∧
    (maxInt32 - 250 ≤ d → changeSpeed true d = d) ∧
    (250 ≤ d → changeSpeed false d = d - 250) ∧
    (d < 250 → changeSpeed false d = d) := by
  rw [maxInt32] at h1 ⊢
  have hs : changeSpeed true d = if d < 2147483647 - 250 then d + 250 else d := by
    simp [changeSpeed, maxInt32]
  have hf : changeSpeed false d = if d - 250 ≥ 0 then d - 250 else d := by
    simp [changeSpeed]
  refine ⟨?_, ?_, ?_, ?_, ?_, ?_⟩
  · cases down
    · rw [hf]; split_ifs <;> omega
    · rw [hs]; split_ifs <;> omega
  · cases down
    · rw [hf]; split_ifs <;> omega
    · rw [hs]; split_ifs <;> omega
  · intro h; rw [hs, if_pos h]
  · intro h; rw [hs, if_neg (by omega)]
  · intro h; rw [hf, if_pos (by omega)]
  · intro h; rw [hf, if_neg (by omega)]

/-- Witness for the amended claim C2 at the concrete delay 500. -/
theorem changeSpeed_step_characterization_witness :
    (0 : Int) ≤ 500 ∧ (500 : Int) ≤ maxInt32 ∧ 0 ≤ changeSpeed true 500 :=
  ⟨by decide, by decide,
    (changeSpeed_step_characterization 500 true (by decide) (by decide)).1⟩

/-- Claim C3 counterexample: on a piped source of three lines with
`rewindLines = 2`, the claim says the first two records are not emitted
and only `"c"` reaches the output sink; the code emits all three lines
(the rewind counter only suppresses the inter-line delay). -/
theorem stdin_rewind_still_emits_skipped_lines :
    relayLoop ((stdinToChanRun ["a", "b", "c"] 2).1.map Prod.fst) = ["a", "b", "c"] ∧
    relayLoop ((stdinToChanRun ["a", "b", "c"] 2).1.map Prod.fst) ≠ ["c"] := by
  decide

/-- Claim C3 as amended (corrected): for a stream source with
`rewindLines = N`, every record is emitted to the output channel in
arrival order; only the inter-line delay is suppressed for the first `N`
records — record `i` (0-based) incurs the delay exactly when `N ≤ i`. -/
theorem stdin_rewind_suppresses_delay_only (input : List String) (r i : Nat) :
    (stdinToChanEvents input r).map Prod.fst = input ∧
    (stdinToChanEvents input r).get? i =
      (input.get? i).map (fun l => (l, decide (r ≤ i))) :=
  ⟨stdinToChanEvents_map_fst input r, stdinToChanEvents_get input r i⟩

/-- Claim C4 (code bug): `main` evaluates
`isStdin() && <-readyChannel`, and Go's `&&` short-circuits, so when
standard input is a character device (the file-watch case) `fileToChan`
is started without ever receiving the readiness token — the claimed
rendezvous is skipped for the file variant, while the stream variant does
wait.  The failing input is an interactive run whose standard input is a
character device. -/
theorem file_variant_starts_without_ready_wait :
    adapterStartWaitsForReady true = false ∧
    adapterStartWaitsForReady false = true := by
  decide

/-- Claim C5 (confirmed): on a finite stream source the adapter closes its
output channel at end-of-input (the deferred `close`), and the relay loop
in `main` then terminates having printed every produced record in arrival
order. -/
theorem stdin_eof_closes_channel_and_relay_prints_all (input : List String) (r : Nat) :
    (stdinToChanRun input r).2 = true ∧
    relayLoop ((stdinToChanRun input r).1.map Prod.fst) = input := by
  refine ⟨rfl, ?_⟩
  rw [stdinToChanRun, relayLoop_eq_id, stdinToChanEvents_map_fst]

/-- Claim C6 (confirmed): when the file cannot be opened, the rewind
pass's counting scan fails, `checkErr` aborts the process (non-zero exit,
modelled by the fatal flag), and no line is emitted by the pass. -/
theorem tailFile_unopenable_fatal_no_output (r : Int) :
    tailFile none r = ([], true) := rfl

/-- Claim C7 counterexample: the claim says every malformed (non-numeric)
`--rewind` value makes configuration parsing fail; but `parseArgs`
discards the `strconv.Atoi` error, so the non-numeric text `"abc"` is
silently treated as 0 and accepted. -/
theorem parseArgs_accepts_non_numeric_rewind :
    goAtoiParse "abc" = none ∧
    parseArgs (some "abc") none none = .ok ⟨0, 250, ""⟩ :=
  ⟨rfl, rfl⟩

/-- Claim C7 as amended (corrected): `parseArgs` succeeds exactly when the
`Atoi` value of each supplied flag lies in `[0, INT32_MAX]` (a negative
or too-large value is rejected with an error, and `main` then exits
non-zero before any streaming starts); an in-range numeric value is
returned unchanged; but non-numeric text is not rejected — the discarded
`Atoi` error leaves the value 0, which is accepted. -/
theorem parseArgs_range_check_characterization (s : String) :
    (exceptOk (parseArgs (some s) none none) = true ↔
      0 ≤ goAtoi s ∧ goAtoi s ≤ maxInt32) ∧
    (goAtoiParse s = none → parseArgs (some s) none none = .ok ⟨0, 250, ""⟩) ∧
    (∀ n : Int, goAtoiParse s = some n → 0 ≤ n → n ≤ maxInt32 →
      parseArgs (some s) none none = .ok ⟨n, 250, ""⟩) ∧
    (exceptOk (parseArgs none (some s) none) = true ↔
      0 ≤ goAtoi s ∧ goAtoi s ≤ maxInt32) ∧
    (∀ n : Int, goAtoiParse s = some n → 0 ≤ n → n ≤ maxInt32 →
      parseArgs none (some s) none = .ok ⟨0, n, ""⟩) := by
  refine ⟨?_, ?_, ?_, ?_, ?_⟩
  · rw [parseArgs_rewind_spec, maxInt32]
    split_ifs with h
    · simp only [exceptOk, Bool.false_eq_true, false_iff]
      omega
    · simp only [exceptOk, true_iff]
      omega
  · intro hp
    have hv : goAtoi s = 0 := by rw [goAtoi, hp]
    rw [parseArgs_rewind_spec, hv]
    rw [if_neg (by rw [maxInt32]; omega)]
  · intro n hp h0 h1
    have hv : goAtoi s = n := goAtoi_of_parse_in_range s n hp h0 h1
    rw [parseArgs_rewind_spec, hv]
    rw [maxInt32] at h1
    rw [if_neg (by rw [maxInt32]; omega)]
  · rw [parseArgs_delay_spec, maxInt32]
    split_ifs with h
    · simp only [exceptOk, Bool.false_eq_true, false_iff]
      omega
    · simp only [exceptOk, true_iff]
      omega
  · intro n hp h0 h1
    have hv : goAtoi s = n := goAtoi_of_parse_in_range s n hp h0 h1
    rw [parseArgs_delay_spec, hv]
    rw [maxInt32] at h1
    rw [if_neg (by rw [maxInt32]; omega)]

/-- Witness for the amended claim C7 at the concrete flag value `"7"`. -/
theorem parseArgs_range_check_characterization_witness :
    goAtoiParse "7" = some 7 ∧ (0 : Int) ≤ 7 ∧ (7 : Int) ≤ maxInt32 ∧
      parseArgs (some "7") none none = .ok ⟨7, 250, ""⟩ :=
  ⟨rfl, by decide, by decide,
    (parseArgs_range_check_characterization "7").2.2.1 7 rfl (by decide) (by decide)⟩

/-- Claim C8 counterexample: in the narrowest printable width tier
(`20 ≤ w < 40`) the banner for a positive delay shows only the delay, not
the direction — the "slower" and "faster" banners are identical — whereas
the claim says the banner states the direction and the delay. -/
theorem speedMessage_narrow_tier_omits_direction :
    speedMessage true 20 250 = speedMessage false 20 250 ∧
    speedMessage true 20 250 = "━ 250 ms ━" := by
  decide

/-- Claim C8 as amended (corrected): below width 20 nothing is printed;
for `w ≥ 20` a zero delay yields the fixed real-time banner of the width
tier (independent of direction); for a positive delay in the tiers with
`w ≥ 40` the banner is exactly the tier's frame around
`Going <direction> (delay: <d> ms)` — it spells out both the direction
word and the rendered delay, and the two directions' banners differ —
while the narrowest tier (`20 ≤ w < 40`) states only the delay. -/
theorem speedMessage_width_tier_characterization (w d : Int) (down : Bool) :
    (w < 20 → speedMessage down w d = "") ∧
    (20 ≤ w → speedMessage down w 0 = realTimeBanner w) ∧
    (70 ≤ w → 0 < d → speedMessage down w d =
      "━━━━━━━━━━━━━━━━ Going " ++ (if down then "slower" else "faster") ++
        " (delay: " ++ toString d ++ " ms) ━━━━━━━━━━━━━━━━") ∧
    (55 ≤ w → w < 70 → 0 < d → speedMessage down w d =
      "━━━━━━━━━ Going " ++ (if down then "slower" else "faster") ++
        " (delay: " ++ toString d ++ " ms) ━━━━━━━━━") ∧
    (40 ≤ w → w < 55 → 0 < d → speedMessage down w d =
      "━━ Going " ++ (if down then "slower" else "faster") ++
        " (delay: " ++ toString d ++ " ms) ━━") ∧
    (40 ≤ w → 0 < d → speedMessage true w d ≠ speedMessage false w d) ∧
    (20 ≤ w → w < 40 → 0 < d →
      speedMessage down w d = "━ " ++ toString d ++ " ms ━") := by
  refine ⟨?_, ?_, ?_, ?_, ?_, ?_, ?_⟩
  · intro h
    rw [speedMessage]
    rw [if_neg (by omega), if_neg (by omega), if_neg (by omega), if_neg (by omega)]
  · intro h
    rw [speedMessage, realTimeBanner]
    split_ifs <;> first | rfl | omega
  · intro h70 hd
    simp only [speedMessage]
    rw [if_pos h70, if_pos hd]
  · intro h55 h70 hd
    simp only [speedMessage]
    rw [if_neg (by omega), if_pos h55, if_pos hd]
  · intro h40 h55 hd
    simp only [speedMessage]
    rw [if_neg (by omega), if_neg (by omega), if_pos h40, if_pos hd]
  · intro h hd
    rw [speedMessage, speedMessage]
    by_cases h70 : 70 ≤ w
    · rw [if_pos h70, if_pos h70, if_pos hd, if_pos hd]
      exact slower_ne_faster_mid _ _ _ _
    · by_cases h55 : 55 ≤ w
      · rw [if_neg h70, if_neg h70, if_pos h55, if_pos h55, if_pos hd, if_pos hd]
        exact slower_ne_faster_mid _ _ _ _
      · rw [if_neg h70, if_neg h70, if_neg h55, if_neg h55, if_pos h, if_pos h,
          if_pos hd, if_pos hd]
        exact slower_ne_faster_mid _ _ _ _
  · intro h1 h2 hd
    rw [speedMessage]
    rw [if_neg (by omega), if_neg (by omega), if_neg (by omega), if_pos h1,
      if_pos hd]

/-- Witness for the amended claim C8: at width 70 the zero-delay banner is
the widest tier's real-time message, and at delay 250 the "slower" banner
spells out the direction and the delay. -/
theorem speedMessage_width_tier_characterization_witness :
    (20 : Int) ≤ 70 ∧ speedMessage true 70 0 = realTimeBanner 70 ∧
      (0 : Int) < 250 ∧ speedMessage true 70 250 =
        "━━━━━━━━━━━━━━━━ Going slower (delay: 250 ms) ━━━━━━━━━━━━━━━━" :=
  ⟨by decide, (speedMessage_width_tier_characterization 70 0 true).2.1 (by decide),
    by decide,
    ((speedMessage_width_tier_characterization 70 250 true).2.2.1 (by decide)
      (by decide)).trans (by decide)⟩

/-- Claim C9 (code bug): the claim says every access to `globalDelay` on
the concurrent paths holds `globalDelayMutex`; but the source contains
unlocked accesses — the sleep-duration reads in `stdinToChan` and
`fileToChan` and the saturation-guard read in `changeSpeed`'s down branch
(besides `main`'s pre-goroutine initialising write).  The failing input
is any run that reaches an inter-line sleep while interactive mode is
active. -/
theorem globalDelay_has_unlocked_accesses :
    (globalDelayAccesses.filter (fun a => !a.underLock)).map DelayAccess.site =
      [.mainInitWrite, .stdinSleepRead, .fileSleepRead, .changeSpeedDownGuardRead] := by
  decide

/-- Claim C10 (confirmed): the variant `main` starts is decided solely by
`isStdin()` — the stream variant exactly when standard input is not a
character device (the readiness token, always `true`, never flips the
choice), and the file-watch variant otherwise; `fileToChan` (the only
code that opens or watches `<file>`) is not started in the stream case. -/
theorem variant_selection_by_char_device (stdinIsCharDevice : Bool) :
    selectedVariant stdinIsCharDevice =
      (if stdinIsCharDevice then Variant.file else Variant.stream) := by
  cases stdinIsCharDevice <;> rfl

end Slowtail
